import Mathlib

/-!
# letters: top-level e-mail assembly

A shallow embedding of `letters.go` (`ParseEmail`, `StripEmailAttachments`) and
`options.go` (`ParseOptions`, `ParseOption`, `WithParseSkipAttachments`).

Go functions returning `(T, error)` are pairs `T × Option Error`; the value half is
what the Go caller receives next to the error.  `io.Reader`s are explicit state: the
bytes the source has not delivered yet.  Collaborators whose source is outside the two
files (the standard library's `mail.ReadMessage` and `charset.Lookup`, and the package
helpers `parseHeaders`, `parseContentTransferEncoding`, `parseText`, `parsePart`,
`decodeAttachmentFileFromBody`) are fields of an environment `Env`; the theorems about
`ParseEmail` and `StripEmailAttachments` quantify over it.  A reference environment
provides concrete messages to instantiate them.
-/

namespace Letters

/-! ## Data model -/

/-- Go `[]byte` (and the content of a byte stream); a nil slice is the empty list. -/
abbrev Bytes := List Nat

/-- Go `error` values. `wrap` is `fmt.Errorf(format, args..., cause)` with a trailing
`%w` verb: the format string, the arguments of the other verbs, and the wrapped error. -/
inductive Error where
  | base (msg : String)
  | wrap (format : String) (args : List String) (cause : Error)
deriving DecidableEq, Repr

deriving instance DecidableEq for Except

/-- Result of a Go function returning `(T, error)`. -/
abbrev GoResult (α : Type) := α × Option Error

/-- Go `map[string]string`. -/
abbrev Params := List (String × String)

/-- Go map indexing `m[k]`: the zero value `""` when the key is absent. -/
def Params.get (m : Params) (k : String) : String :=
  match m.lookup k with
  | some v => v
  | none => ""

/-- Modelled from the spec: the `ContentTypeHeader` type declaration is absent; a type
string plus a parameter mapping (spec §3, ContentType). -/
structure ContentTypeHeader where
  ContentType : String := ""
  Params : Params := []
deriving DecidableEq, Repr

/-- Modelled from the spec: the `Headers` type declaration is absent; only its
`ContentType` field is read by the code, the remaining fields are kept opaque. -/
structure Headers where
  ContentType : ContentTypeHeader := {}
  Other : Params := []
deriving DecidableEq, Repr

/-- Modelled from the spec: the `ContentTransferEncoding` type declaration is absent
(spec §3: seven-bit, eight-bit, binary, quoted-printable, base64). -/
inductive ContentTransferEncoding where
  | cte7bit | cte8bit | cteBinary | cteQuotedPrintable | cteBase64
deriving DecidableEq, Repr

/-- Modelled from the spec: the `AttachedFile` type declaration is absent (spec §3:
decoded payload, declared MIME type, optional filename). -/
structure AttachedFile where
  ContentType : ContentTypeHeader := {}
  Filename : String := ""
  Data : Bytes := []
deriving DecidableEq, Repr

/-- Modelled from the spec: the `InlineFile` type declaration is absent (spec §3:
as an attached file, plus a content identifier). -/
structure InlineFile where
  ContentID : String := ""
  ContentType : ContentTypeHeader := {}
  Filename : String := ""
  Data : Bytes := []
deriving DecidableEq, Repr

/-- Modelled from the spec: the `Email` type declaration is absent (spec §3, Email).
The default values are Go's zero value `var email Email`. -/
structure Email where
  Headers : Headers := {}
  Text : String := ""
  EnrichedText : String := ""
  HTML : String := ""
  InlineFiles : List InlineFile := []
  AttachedFiles : List AttachedFile := []
deriving DecidableEq, Repr

/-- Modelled from the spec: the result type of `parsePart` is absent; the fields are the
ones `ParseEmail` reads (`text`, `enrichedText`, `html`, `InlineFiles`, `AttachedFiles`). -/
structure EmailBodies where
  text : String := ""
  enrichedText : String := ""
  html : String := ""
  InlineFiles : List InlineFile := []
  AttachedFiles : List AttachedFile := []
deriving DecidableEq, Repr

/-- Go `encoding.Encoding` as returned by `charset.Lookup`: `none` is the nil interface
(name not found), otherwise the canonical name of the encoding. -/
abbrev Encoding := Option String

/-- Go `mail.Header`, keyed by canonical field name. -/
abbrev MailHeader := List (String × String)

/-- Go `mail.Header.Get`: first value of the field, `""` when absent. -/
def MailHeader.Get (h : MailHeader) (key : String) : String :=
  match h.lookup key with
  | some v => v
  | none => ""

/-- State of an `io.Reader`: the bytes the source has yet to deliver. -/
abbrev Reader := Bytes

/-- Reading `n` more bytes from a reader (fewer if the source ends first). -/
def Reader.pull (r : Reader) (n : Nat) : Reader := r.drop n

/-- Go `msg.Body`: the buffered reader `mail.ReadMessage` leaves positioned after the
header block. `buffered` are the bytes it already pulled from the source but has not
handed out; `src` is the state of the source reader `r` it wraps. -/
structure BodyReader where
  buffered : Bytes := []
  src : Reader := []
deriving DecidableEq, Repr

/-- Go `*mail.Message`. -/
structure Message where
  Header : MailHeader := []
  Body : BodyReader := {}
deriving DecidableEq, Repr

/-! ## options.go -/

/-- Go `ParseOptions` (options.go:4). The default is the zero value. -/
structure ParseOptions where
  SkipAttachments : Bool := false
deriving DecidableEq, Repr

/-- Go `ParseOption func(opts *ParseOptions)` (options.go:8): the function mutates the
options in place, here it returns the updated value. -/
abbrev ParseOption := ParseOptions → ParseOptions

/-- options.go:11. -/
def WithParseSkipAttachments : ParseOption :=
  fun opts => { opts with SkipAttachments := true }

/-! ## Collaborators -/

/-- The functions `ParseEmail` calls whose source is not part of `letters.go` or
`options.go`. A function that reads from a reader also returns the number of bytes it
makes the source reader `r` deliver. -/
structure Env where
  /-- Go `mail.ReadMessage(r)`: on success the header and the bytes left in the buffer of
  `msg.Body`, otherwise an error (the message pointer is nil). -/
  ReadMessage : Reader → Except Error (MailHeader × Bytes) × Nat
  /-- Go `charset.Lookup(name)`, first result. -/
  charsetLookup : String → Encoding
  parseHeaders : MailHeader → GoResult Headers
  parseContentTransferEncoding : String → GoResult ContentTransferEncoding
  parseText : BodyReader → Encoding → ContentTransferEncoding → GoResult String × Nat
  parsePart : BodyReader → ContentTypeHeader → String → List ParseOption →
    GoResult EmailBodies × Nat
  decodeAttachmentFileFromBody : BodyReader → Headers → ContentTransferEncoding →
    GoResult AttachedFile × Nat

/-- Modelled from the spec: the constant `contentTypeTextPlain` is absent (spec §4.1). -/
def contentTypeTextPlain : String := "text/plain"

/-- Modelled from the spec: the constant `contentTypeTextEnriched` is absent (spec §4.1). -/
def contentTypeTextEnriched : String := "text/enriched"

/-- Modelled from the spec: the constant `contentTypeTextHtml` is absent (spec §4.1). -/
def contentTypeTextHtml : String := "text/html"

/-- Modelled from the spec: the constant `contentTypeMultipartPrefix` is absent
(spec §4.1, `multipart/*`). -/
def contentTypeMultipartPrefix : String := "multipart/"

/-- Go `strings.HasPrefix(s, pre)`. -/
def hasPrefix (s pre : String) : Bool := pre.data.isPrefixOf s.data

/-- Line normalisation on characters: CRLF and bare CR become LF. -/
def normalizeChars : List Char → List Char
  | [] => []
  | [c] => if c = Char.ofNat 13 then [Char.ofNat 10] else [c]
  | c :: d :: rest =>
    if c = Char.ofNat 13 then
      if d = Char.ofNat 10 then Char.ofNat 10 :: normalizeChars rest
      else Char.ofNat 10 :: normalizeChars (d :: rest)
    else c :: normalizeChars (d :: rest)

/-- Modelled from the spec: the helper `normalizeMultilineString` is absent; spec §4.5:
rewrites all CRLF and bare-CR sequences to a single LF. -/
def normalizeMultilineString (s : String) : String := ⟨normalizeChars s.data⟩

/-- Go `fmt.Errorf(format, args..., err)` where the last verb of `format` is `%w`. -/
def fmtErrorf (format : String) (args : List String) (err : Error) : Error :=
  Error.wrap format args err

/-! ## letters.go -/

/-- letters.go:14–17: the options start at the zero value and every option is applied
in list order. -/
def applyOptions (opts : List ParseOption) : ParseOptions :=
  opts.foldl (fun options opt => opt options) {}

/-- letters.go:40–84: the branch selected by the top-level Content-Type. `email` holds
the parsed headers, `r` is the state of the source reader behind `msg.Body`. -/
def dispatch (env : Env) (options : ParseOptions) (opts : List ParseOption)
    (msg : Message) (email : Email) (encoding : Encoding)
    (cte : ContentTransferEncoding) (r : Reader) : GoResult Email × Reader :=
  if email.Headers.ContentType.ContentType = contentTypeTextPlain then
    match env.parseText msg.Body encoding cte with
    | ((text, some err), k) =>
      (({ email with Text := text },
        some (fmtErrorf "letters.ParseEmail: cannot parse plain text: %w" [] err)),
        r.pull k)
    | ((text, none), k) => (({ email with Text := text }, none), r.pull k)
  else if email.Headers.ContentType.ContentType = contentTypeTextEnriched then
    match env.parseText msg.Body encoding cte with
    | ((text, some err), k) =>
      (({ email with EnrichedText := text },
        some (fmtErrorf "letters.ParseEmail: cannot parse enriched text: %w" [] err)),
        r.pull k)
    | ((text, none), k) => (({ email with EnrichedText := text }, none), r.pull k)
  else if email.Headers.ContentType.ContentType = contentTypeTextHtml then
    match env.parseText msg.Body encoding cte with
    | ((text, some err), k) =>
      (({ email with HTML := text },
        some (fmtErrorf "letters.ParseEmail: cannot parse html text: %w" [] err)),
        r.pull k)
    | ((text, none), k) => (({ email with HTML := text }, none), r.pull k)
  else if hasPrefix email.Headers.ContentType.ContentType contentTypeMultipartPrefix then
    let boundary := email.Headers.ContentType.Params.get "boundary"
    match env.parsePart msg.Body email.Headers.ContentType boundary opts with
    | ((_, some err), k) =>
      ((email, some (fmtErrorf
        "letters.ParseEmail: cannot parse part %q with boundary %q: %w"
        [email.Headers.ContentType.ContentType, boundary] err)), r.pull k)
    | ((emailBodies, none), k) =>
      (({ email with
          Text := emailBodies.text
          EnrichedText := emailBodies.enrichedText
          HTML := emailBodies.html
          InlineFiles := emailBodies.InlineFiles
          AttachedFiles := emailBodies.AttachedFiles }, none), r.pull k)
  else
    if !options.SkipAttachments then
      match env.decodeAttachmentFileFromBody msg.Body email.Headers cte with
      | ((_, some err), k) =>
        ((email, some (fmtErrorf
          "letters.decoders.ParseEmail: cannot decode attached file content from body: %w"
          [] err)), r.pull k)
      | ((afl, none), k) =>
        (({ email with AttachedFiles := email.AttachedFiles ++ [afl] }, none), r.pull k)
    else
      ((email, none), r)

/-- letters.go:86–90: the three text fields are line-normalised before the e-mail is
returned. -/
def normalizeTexts (email : Email) : Email :=
  { email with
    Text := normalizeMultilineString email.Text
    EnrichedText := normalizeMultilineString email.EnrichedText
    HTML := normalizeMultilineString email.HTML }

/-- letters.go:13–91. The result is the Go return pair together with the state of
the reader `r` after the call. -/
def ParseEmail (env : Env) (r : Reader) (opts : List ParseOption) :
    GoResult Email × Reader :=
  let options := applyOptions opts
  let email : Email := {}
  match env.ReadMessage r with
  | (.error err, n) =>
    ((email, some (fmtErrorf "letters.ParseEmail: cannot read message: %w" [] err)),
      r.pull n)
  | (.ok (header, buffered), n) =>
    let r := r.pull n
    let msg : Message := { Header := header, Body := { buffered := buffered, src := r } }
    match env.parseHeaders msg.Header with
    | (_, some err) =>
      ((email, some (fmtErrorf "letters.ParseEmail: cannot parse headers: %w" [] err)), r)
    | (headers, none) =>
      let email : Email := { Headers := headers }
      let encoding := env.charsetLookup (email.Headers.ContentType.Params.get "charset")
      match env.parseContentTransferEncoding
          (msg.Header.Get "Content-Transfer-Encoding") with
      | (_, some err) =>
        ((email, some (fmtErrorf
          "letters.ParseEmail: cannot parse Content-Transfer-Encoding: %w" [] err)), r)
      | (cte, none) =>
        match dispatch env options opts msg email encoding cte r with
        | ((email, some err), r) => ((email, some err), r)
        | ((email, none), r) => ((normalizeTexts email, none), r)

/-- Content of the `bytes.Buffer` behind `io.TeeReader(r, &buf)` once the wrapped
reader has gone from state `before` to state `after`: every byte delivered in between. -/
def teeBytes (before after : Reader) : Bytes :=
  before.take (before.length - after.length)

/-- letters.go:93–104. Reading through the tee reader delivers the same bytes as
reading `r` itself, so the parse is the one of `r`; the buffer holds what was read. -/
def StripEmailAttachments (env : Env) (r : Reader) : GoResult Bytes :=
  match ParseEmail env r [WithParseSkipAttachments] with
  | ((_, some err), _) =>
    ([], some (fmtErrorf "letters.StripEmailAttachments: cannot parse email: %w" [] err))
  | ((_, none), after) => (teeBytes r after, none)

/-! ## A reference environment

Small executable stand-ins for the collaborators, on the standard wire format
(header lines `Name: value`, a blank line, the body).  They instantiate the theorems
below at concrete messages; no theorem about `ParseEmail` depends on them. -/

/-- The bytes of an ASCII string. -/
def bytesOf (s : String) : Bytes := s.data.map Char.toNat

/-- Go `string(b)` for ASCII bytes. -/
def stringOf (b : Bytes) : String := ⟨b.map Char.ofNat⟩

/-- Cuts at the first occurrence of `sep`: what precedes it and, when it occurs,
what follows it. -/
def cutAt (sep : Nat) : Bytes → Bytes × Option Bytes
  | [] => ([], none)
  | b :: bs =>
    if b = sep then ([], some bs)
    else
      match cutAt sep bs with
      | (before, after) => (b :: before, after)

/-- Splits at every occurrence of `sep`. -/
def splitAll (sep : Nat) : Bytes → List Bytes
  | [] => [[]]
  | b :: bs =>
    match splitAll sep bs with
    | [] => [[b]]
    | x :: xs => if b = sep then [] :: x :: xs else (b :: x) :: xs

/-- Removes a trailing CR. -/
def stripCR (line : Bytes) : Bytes :=
  match line.reverse with
  | 13 :: rest => rest.reverse
  | _ => line

/-- Removes leading and trailing spaces, tabs and CRs. -/
def trimSpace (b : Bytes) : Bytes :=
  let blank : Nat → Bool := fun c => c = 32 || c = 9 || c = 13
  ((b.dropWhile blank).reverse.dropWhile blank).reverse

/-- Removes one pair of surrounding double quotes. -/
def unquote (b : Bytes) : Bytes :=
  match b with
  | 34 :: rest =>
    match rest.reverse with
    | 34 :: inner => inner.reverse
    | _ => b
  | _ => b

/-- Joins lines with LF. -/
def joinLF : List Bytes → Bytes
  | [] => []
  | [l] => l
  | l :: ls => l ++ 10 :: joinLF ls

/-- Reads header lines up to the blank line that ends the header block: the lines (in
order, line ends removed) and the bytes after the blank line; `none` when the input ends
first. `cur` is the current line reversed, `acc` the finished lines reversed. -/
def readHeaderLines (cur : Bytes) (acc : List Bytes) : Bytes → Option (List Bytes × Bytes)
  | [] => none
  | b :: bs =>
    if b = 10 then
      if stripCR cur.reverse = [] then some (acc.reverse, bs)
      else readHeaderLines [] (stripCR cur.reverse :: acc) bs
    else readHeaderLines (b :: cur) acc bs

/-- One header line `Name: value`; `none` when the colon is missing. -/
def headerField (line : Bytes) : Option (String × String) :=
  match cutAt 58 line with
  | (name, some value) => some (stringOf name, stringOf (trimSpace value))
  | (_, none) => none

/-- The header fields of a block of lines; `none` when a line is malformed. -/
def headerFields : List Bytes → Option MailHeader
  | [] => some []
  | l :: ls =>
    match headerField l, headerFields ls with
    | some f, some fs => some (f :: fs)
    | _, _ => none

/-- Size of the buffer of Go's `bufio.NewReader`. -/
def bufioSize : Nat := 4096

/-- Bytes a buffered reader pulls from a source holding `avail` bytes in order to hand
out `need` of them: whole buffers, as far as the source goes. -/
def bufferedPull (need avail : Nat) : Nat :=
  min avail ((need + (bufioSize - 1)) / bufioSize * bufioSize)

/-- Stand-in for `mail.ReadMessage`: reads the header block through a buffered reader;
fails when the input ends before the blank line. -/
def refReadMessage (r : Reader) : Except Error (MailHeader × Bytes) × Nat :=
  match readHeaderLines [] [] r with
  | none => (.error (.base "EOF"), r.length)
  | some (lines, body) =>
    match headerFields lines with
    | none => (.error (.base "malformed MIME header line"), r.length - body.length)
    | some h =>
      let n := bufferedPull (r.length - body.length) r.length
      (.ok (h, (r.take n).drop (r.length - body.length)), n)

/-- Stand-in for `charset.Lookup`: UTF-8 and US-ASCII are known. -/
def refCharsetLookup (name : String) : Encoding :=
  if name = "utf-8" ∨ name = "UTF-8" then some "utf-8"
  else if name = "us-ascii" ∨ name = "US-ASCII" then some "windows-1252"
  else none

/-- One `key=value` parameter of a media type. -/
def mediaParam (piece : Bytes) : Option (String × String) :=
  match cutAt 61 (trimSpace piece) with
  | (k, some v) => some (stringOf (trimSpace k), stringOf (unquote (trimSpace v)))
  | (_, none) => none

/-- A media type with its parameters, `type/subtype; key=value; ...`. -/
def parseMediaType (v : Bytes) : ContentTypeHeader :=
  match splitAll 59 v with
  | [] => {}
  | t :: ps => { ContentType := stringOf (trimSpace t), Params := ps.filterMap mediaParam }

/-- Modelled from the spec: the helper `parseHeaders` is absent; it resolves the
Content-Type (type plus parameter map, spec §3) and fails on a malformed one (spec §7,
ContentTypeError). A missing Content-Type is `text/plain`. -/
def refParseHeaders (h : MailHeader) : GoResult Headers :=
  let v := h.Get "Content-Type"
  let ct : ContentTypeHeader :=
    if v = "" then { ContentType := "text/plain" } else parseMediaType (bytesOf v)
  if ct.ContentType.data.contains (Char.ofNat 47) then
    ({ ContentType := ct, Other := h }, none)
  else ({}, some (.base "mime: expected slash after first token"))

/-- Modelled from the spec: the helper `parseContentTransferEncoding` is absent; spec §3:
absence of the header defaults to seven-bit, spec §4.2: an unrecognized token fails. -/
def refParseContentTransferEncoding (v : String) : GoResult ContentTransferEncoding :=
  if v = "" ∨ v = "7bit" then (.cte7bit, none)
  else if v = "8bit" then (.cte8bit, none)
  else if v = "binary" then (.cteBinary, none)
  else if v = "quoted-printable" then (.cteQuotedPrintable, none)
  else if v = "base64" then (.cteBase64, none)
  else (.cte7bit, some (.base "unknown Content-Transfer-Encoding"))

/-- Value of a base64 digit. -/
def b64Value (c : Nat) : Option Nat :=
  if 65 ≤ c ∧ c ≤ 90 then some (c - 65)
  else if 97 ≤ c ∧ c ≤ 122 then some (c - 71)
  else if 48 ≤ c ∧ c ≤ 57 then some (c + 4)
  else if c = 43 then some 62
  else if c = 47 then some 63
  else none

/-- Base64 decoding of groups of four digits, `=` padding in the last group. -/
def b64Groups : Bytes → Option Bytes
  | [] => some []
  | a :: b :: c :: d :: rest =>
    match b64Value a, b64Value b with
    | some x, some y =>
      if c = 61 ∧ d = 61 ∧ rest = [] then some [(x * 4 + y / 16) % 256]
      else
        match b64Value c with
        | none => none
        | some z =>
          if d = 61 ∧ rest = [] then some [(x * 4 + y / 16) % 256, (y * 16 + z / 4) % 256]
          else
            match b64Value d, b64Groups rest with
            | some w, some tl =>
              some ((x * 4 + y / 16) % 256 :: (y * 16 + z / 4) % 256 ::
                (z * 64 + w) % 256 :: tl)
            | _, _ => none
    | _, _ => none
  | _ => none

/-- Value of a hexadecimal digit. -/
def hexValue (c : Nat) : Option Nat :=
  if 48 ≤ c ∧ c ≤ 57 then some (c - 48)
  else if 65 ≤ c ∧ c ≤ 70 then some (c - 55)
  else if 97 ≤ c ∧ c ≤ 102 then some (c - 87)
  else none

/-- Quoted-printable decoding: `=XY` escapes and soft line breaks. -/
def qpDecode : Bytes → Option Bytes
  | [] => some []
  | c :: rest =>
    if c = 61 then
      match rest with
      | a :: b :: rest2 =>
        if a = 10 then qpDecode (b :: rest2)
        else if a = 13 ∧ b = 10 then qpDecode rest2
        else
          match hexValue a, hexValue b, qpDecode rest2 with
          | some x, some y, some tl => some ((x * 16 + y) :: tl)
          | _, _, _ => none
      | [a] => if a = 10 then some [] else none
      | [] => none
    else (qpDecode rest).map (fun tl => c :: tl)

/-- Modelled from the spec: the Encoding Decoder is absent; spec §4.2: seven-bit,
eight-bit and binary pass through, quoted-printable and base64 are decoded (base64
tolerant of line breaks) and fail on malformed input. -/
def decodeContent (b : Bytes) : ContentTransferEncoding → GoResult Bytes
  | .cteBase64 =>
    match b64Groups (b.filter (fun c => c != 10 && c != 13)) with
    | some d => (d, none)
    | none => ([], some (.base "illegal base64 data"))
  | .cteQuotedPrintable =>
    match qpDecode b with
    | some d => (d, none)
    | none => ([], some (.base "quotedprintable: invalid escape"))
  | _ => (b, none)

/-- Modelled from the spec: the helper `parseText` is absent; spec §4.2 and §4.3: the
whole body is read and decoded, the bytes are taken as canonical text. On a decode error
it returns the empty string with the error. -/
def refParseText (body : BodyReader) (_ : Encoding) (cte : ContentTransferEncoding) :
    GoResult String × Nat :=
  match decodeContent (body.buffered ++ body.src) cte with
  | (_, some err) =>
    (("", some (fmtErrorf "letters.parsers.parseText: cannot read content: %w" [] err)),
      body.src.length)
  | (d, none) => ((stringOf d, none), body.src.length)

/-- Modelled from the spec: the helper `decodeAttachmentFileFromBody` is absent; spec
§4.1: the entire body is one attachment, type and filename from the top-level headers. -/
def refDecodeAttachmentFileFromBody (body : BodyReader) (headers : Headers)
    (cte : ContentTransferEncoding) : GoResult AttachedFile × Nat :=
  match decodeContent (body.buffered ++ body.src) cte with
  | (_, some err) =>
    (({}, some (fmtErrorf "letters.decoders.decodeAttachedFileFromBody: %w" [] err)),
      body.src.length)
  | (d, none) =>
    (({ ContentType := headers.ContentType,
        Filename := headers.ContentType.Params.get "name",
        Data := d }, none), body.src.length)

/-- Part kinds of the Part Classifier (spec §4.4.1). -/
inductive PartKind where
  | plainText | enrichedText | html | multipart | inline | attachment
deriving DecidableEq, Repr

/-- Modelled from the spec: the Part Classifier is absent; spec §4.4.1. -/
def classify (ct : ContentTypeHeader) (disposition contentID : String) : PartKind :=
  if hasPrefix ct.ContentType contentTypeMultipartPrefix then .multipart
  else if disposition = "attachment" then .attachment
  else if disposition = "inline" ∧ contentID ≠ "" then .inline
  else if ct.ContentType = contentTypeTextPlain then .plainText
  else if ct.ContentType = contentTypeTextEnriched then .enrichedText
  else if ct.ContentType = contentTypeTextHtml then .html
  else .attachment

/-- Drops the preamble: the lines after the first delimiter line, `none` when the
delimiter never appears. -/
def skipPreamble (delim : Bytes) : List Bytes → Option (List Bytes)
  | [] => none
  | l :: ls => if stripCR l = delim then some ls else skipPreamble delim ls

/-- The segments between delimiter lines up to the closing delimiter, and the lines of
the epilogue; `none` when the closing delimiter is missing. `cur` holds the lines of
the current segment reversed, `acc` the finished segments reversed. -/
def partsAfter (delim : Bytes) (cur : List Bytes) (acc : List Bytes) :
    List Bytes → Option (List Bytes × List Bytes)
  | [] => none
  | l :: ls =>
    if stripCR l = delim ++ [45, 45] then
      some ((stripCR (joinLF cur.reverse) :: acc).reverse, ls)
    else if stripCR l = delim then
      partsAfter delim [] (stripCR (joinLF cur.reverse) :: acc) ls
    else partsAfter delim (l :: cur) acc ls

/-- Merge of a nested result into the running aggregate (spec §4.4 step 2): a text kind
present in the nested result overwrites, the file sequences are concatenated. -/
def mergeBodies (agg sub : EmailBodies) : EmailBodies :=
  { text := if sub.text = "" then agg.text else sub.text
    enrichedText := if sub.enrichedText = "" then agg.enrichedText else sub.enrichedText
    html := if sub.html = "" then agg.html else sub.html
    InlineFiles := agg.InlineFiles ++ sub.InlineFiles
    AttachedFiles := agg.AttachedFiles ++ sub.AttachedFiles }

/-- Content identifier without its angle brackets. -/
def contentID (v : String) : String :=
  stringOf ((bytesOf v).filter (fun c => c != 60 && c != 62))

/-- One part of a multipart body folded into the aggregate (spec §4.4 steps 1–5);
`descend` handles a nested multipart body with its boundary. -/
def partStep (descend : Bytes → String → GoResult EmailBodies) (options : ParseOptions)
    (agg : EmailBodies) (seg : Bytes) : GoResult EmailBodies :=
  match readHeaderLines [] [] (seg ++ [10]) with
  | none => (agg, some (.base "malformed MIME header: missing blank line"))
  | some (lines, rest) =>
    let body := rest.dropLast
    match headerFields lines with
    | none => (agg, some (.base "malformed MIME header line"))
    | some h =>
      match refParseHeaders h, refParseContentTransferEncoding
          (h.Get "Content-Transfer-Encoding") with
      | (_, some err), _ => (agg, some err)
      | _, (_, some err) => (agg, some err)
      | (hs, none), (cte, none) =>
        let disposition := parseMediaType (bytesOf (h.Get "Content-Disposition"))
        let name :=
          if disposition.Params.get "filename" = "" then hs.ContentType.Params.get "name"
          else disposition.Params.get "filename"
        match classify hs.ContentType disposition.ContentType (h.Get "Content-ID") with
        | .multipart =>
          match descend body (hs.ContentType.Params.get "boundary") with
          | (_, some err) => (agg, some err)
          | (sub, none) => (mergeBodies agg sub, none)
        | .plainText =>
          match decodeContent body cte with
          | (_, some err) => (agg, some err)
          | (d, none) => ({ agg with text := stringOf d }, none)
        | .enrichedText =>
          match decodeContent body cte with
          | (_, some err) => (agg, some err)
          | (d, none) => ({ agg with enrichedText := stringOf d }, none)
        | .html =>
          match decodeContent body cte with
          | (_, some err) => (agg, some err)
          | (d, none) => ({ agg with html := stringOf d }, none)
        | .inline =>
          match decodeContent body cte with
          | (_, some err) => (agg, some err)
          | (d, none) =>
            ({ agg with InlineFiles := agg.InlineFiles ++
                [{ ContentID := contentID (h.Get "Content-ID"),
                   ContentType := hs.ContentType, Filename := name, Data := d }] }, none)
        | .attachment =>
          if options.SkipAttachments then (agg, none)
          else
            match decodeContent body cte with
            | (_, some err) => (agg, some err)
            | (d, none) =>
              ({ agg with AttachedFiles := agg.AttachedFiles ++
                  [{ ContentType := hs.ContentType, Filename := name, Data := d }] }, none)

/-- Folds the parts in document order, stopping at the first error. -/
def foldParts (step : EmailBodies → Bytes → GoResult EmailBodies) :
    EmailBodies → List Bytes → GoResult EmailBodies
  | agg, [] => (agg, none)
  | agg, seg :: segs =>
    match step agg seg with
    | (a, some err) => (a, some err)
    | (a, none) => foldParts step a segs

/-- The Multipart Descender on a whole body (spec §4.4), nesting bounded by `fuel`;
with the result, the number of body bytes read (through the closing delimiter). -/
def descend : Nat → ParseOptions → Bytes → String → GoResult EmailBodies × Nat
  | 0, _, body, _ => (({}, some (.base "multipart: nesting too deep")), body.length)
  | fuel + 1, options, body, boundary =>
    match skipPreamble (45 :: 45 :: bytesOf boundary) (splitAll 10 body) with
    | none =>
      (({}, some (.base ("multipart: boundary not found: --" ++ boundary))), body.length)
    | some ls =>
      match partsAfter (45 :: 45 :: bytesOf boundary) [] [] ls with
      | none => (({}, some (.base "multipart: NextPart: EOF")), body.length)
      | some (segs, epilogue) =>
        (foldParts (partStep (fun b bd => (descend fuel options b bd).1) options) {} segs,
          body.length - (joinLF epilogue).length)

/-- Modelled from the spec: the helper `parsePart` (the Multipart Descender) is absent;
spec §4.4. The body is read through a buffered reader up to the closing delimiter. -/
def refParsePart (body : BodyReader) (_ : ContentTypeHeader) (boundary : String)
    (opts : List ParseOption) : GoResult EmailBodies × Nat :=
  match descend 8 (applyOptions opts) (body.buffered ++ body.src) boundary with
  | (res, used) => (res, bufferedPull (used - body.buffered.length) body.src.length)

/-- The reference environment. -/
def refEnv : Env where
  ReadMessage := refReadMessage
  charsetLookup := refCharsetLookup
  parseHeaders := refParseHeaders
  parseContentTransferEncoding := refParseContentTransferEncoding
  parseText := refParseText
  parsePart := refParsePart
  decodeAttachmentFileFromBody := refDecodeAttachmentFileFromBody

/-! ## Stages of a parse, as the specification describes them -/

/-- The stages of `ParseEmail` (spec §4.1): framing, header and Content-Type parsing,
transfer-encoding resolution, and the branch selected by the Content-Type. -/
inductive Stage where
  | framing | headers | transferEncoding
  | plainText | enrichedText | htmlText | multipart | attachment
deriving DecidableEq, Repr

/-- A failed stage: the stage, the error it reported and, for the multipart stage, the
content type and boundary it was working on. -/
structure StageFailure where
  stage : Stage
  cause : Error
  contentType : String := ""
  boundary : String := ""
deriving DecidableEq, Repr

/-- The branch the top-level Content-Type selects; with attachments skipped, a type that
is neither text nor multipart selects no branch. -/
def selectedBranch (contentType : String) (skipAttachments : Bool) : Option Stage :=
  if contentType = contentTypeTextPlain then some .plainText
  else if contentType = contentTypeTextEnriched then some .enrichedText
  else if contentType = contentTypeTextHtml then some .htmlText
  else if hasPrefix contentType contentTypeMultipartPrefix then some .multipart
  else if skipAttachments then none
  else some .attachment

/-- The error, if any, of running one branch on the message body. -/
def branchError (env : Env) (opts : List ParseOption) (body : BodyReader)
    (headers : Headers) (cte : ContentTransferEncoding) : Stage → Option Error
  | .plainText | .enrichedText | .htmlText =>
    (env.parseText body
      (env.charsetLookup (headers.ContentType.Params.get "charset")) cte).1.2
  | .multipart =>
    (env.parsePart body headers.ContentType
      (headers.ContentType.Params.get "boundary") opts).1.2
  | .attachment => (env.decodeAttachmentFileFromBody body headers cte).1.2
  | _ => none

/-- Specification of the failure behaviour (spec §4.1, §7): the stages are tried in the
order framing, header parsing, transfer-encoding resolution, selected branch; the
result is the first stage that fails, `none` when none does. -/
def firstFailure (env : Env) (r : Reader) (opts : List ParseOption) : Option StageFailure :=
  match env.ReadMessage r with
  | (.error err, _) => some { stage := .framing, cause := err }
  | (.ok (header, buffered), n) =>
    match (env.parseHeaders header).2 with
    | some err => some { stage := .headers, cause := err }
    | none =>
      match (env.parseContentTransferEncoding
          (header.Get "Content-Transfer-Encoding")).2 with
      | some err => some { stage := .transferEncoding, cause := err }
      | none =>
        match selectedBranch (env.parseHeaders header).1.ContentType.ContentType
            (applyOptions opts).SkipAttachments with
        | none => none
        | some stage =>
          (branchError env opts { buffered := buffered, src := r.pull n }
            (env.parseHeaders header).1
            (env.parseContentTransferEncoding
              (header.Get "Content-Transfer-Encoding")).1 stage).map
            (fun err =>
              { stage := stage, cause := err,
                contentType := (env.parseHeaders header).1.ContentType.ContentType,
                boundary := (env.parseHeaders header).1.ContentType.Params.get "boundary" })

/-- The message by which the returned error identifies a stage. -/
def stageFormat : Stage → String
  | .framing => "letters.ParseEmail: cannot read message: %w"
  | .headers => "letters.ParseEmail: cannot parse headers: %w"
  | .transferEncoding => "letters.ParseEmail: cannot parse Content-Transfer-Encoding: %w"
  | .plainText => "letters.ParseEmail: cannot parse plain text: %w"
  | .enrichedText => "letters.ParseEmail: cannot parse enriched text: %w"
  | .htmlText => "letters.ParseEmail: cannot parse html text: %w"
  | .multipart => "letters.ParseEmail: cannot parse part %q with boundary %q: %w"
  | .attachment =>
    "letters.decoders.ParseEmail: cannot decode attached file content from body: %w"

/-- What the returned error names besides the stage: for a multipart failure the
content type and the boundary. -/
def stageArgs (f : StageFailure) : List String :=
  if f.stage = .multipart then [f.contentType, f.boundary] else []

/-! ## Sample messages -/

/-- A single-part `text/plain` message with CRLF line ends. -/
def plainMessage : Bytes :=
  bytesOf "Content-Type: text/plain; charset=utf-8\r\n\r\nhello\r\nworld"

/-- The header `mail.ReadMessage` reads from `plainMessage`. -/
def plainHeader : MailHeader := [("Content-Type", "text/plain; charset=utf-8")]

/-- The headers `parseHeaders` resolves from `plainHeader`. -/
def plainHeaders : Headers :=
  { ContentType := { ContentType := "text/plain", Params := [("charset", "utf-8")] },
    Other := plainHeader }

/-- A single-part `text/enriched` message. -/
def enrichedMessage : Bytes :=
  bytesOf "Content-Type: text/enriched\n\n<bold>hi</bold>\r\n"

/-- A single-part base64 `text/html` message. -/
def htmlMessage : Bytes :=
  bytesOf "Content-Type: text/html\nContent-Transfer-Encoding: base64\n\nPGI+aGk8L2I+"

/-- A `multipart/mixed` message: a plain part, a base64 HTML part, an inline image and
an attached file, with preamble and epilogue. -/
def multipartMessage : Bytes :=
  bytesOf ("Content-Type: multipart/mixed; boundary=\"b1\"\n\npreamble\n" ++
    "--b1\nContent-Type: text/plain\n\nhi\r\nthere\n" ++
    "--b1\nContent-Type: text/html\nContent-Transfer-Encoding: base64\n\nSGVsbG8=\n" ++
    "--b1\nContent-Type: image/png\nContent-Disposition: inline\n" ++
    "Content-ID: <img1>\n\nPNG\n" ++
    "--b1\nContent-Type: application/pdf\n" ++
    "Content-Disposition: attachment; filename=report.pdf\n\nPDF\n" ++
    "--b1--\nepilogue")

/-- The header `mail.ReadMessage` reads from `multipartMessage`. -/
def multipartHeader : MailHeader := [("Content-Type", "multipart/mixed; boundary=\"b1\"")]

/-- The headers `parseHeaders` resolves from `multipartHeader`. -/
def multipartHeaders : Headers :=
  { ContentType := { ContentType := "multipart/mixed", Params := [("boundary", "b1")] },
    Other := multipartHeader }

/-- A single-part base64 `application/pdf` message. -/
def pdfMessage : Bytes :=
  bytesOf ("Content-Type: application/pdf; name=x.pdf\n" ++
    "Content-Transfer-Encoding: base64\n\nSGVsbG8=")

/-- The header `mail.ReadMessage` reads from `pdfMessage`. -/
def pdfHeader : MailHeader :=
  [("Content-Type", "application/pdf; name=x.pdf"), ("Content-Transfer-Encoding", "base64")]

/-- The headers `parseHeaders` resolves from `pdfHeader`. -/
def pdfHeaders : Headers :=
  { ContentType := { ContentType := "application/pdf", Params := [("name", "x.pdf")] },
    Other := pdfHeader }

/-- A message whose Content-Transfer-Encoding token is not recognized. -/
def bogusMessage : Bytes :=
  bytesOf "Content-Type: text/plain\nContent-Transfer-Encoding: bogus\n\nhello"

/-- A caller-defined option (the type `ParseOption` is an exported function type):
`func(o *ParseOptions) { o.SkipAttachments = false }`. -/
def clearSkipAttachments : ParseOption :=
  fun opts => { opts with SkipAttachments := false }

/-- Decodes the leading base64 groups of four digits and stops at the first group that
is not made of four digits. -/
def b64Prefix : Bytes → Bytes
  | a :: b :: c :: d :: rest =>
    match b64Value a, b64Value b, b64Value c, b64Value d with
    | some x, some y, some z, some w =>
      (x * 4 + y / 16) % 256 :: (y * 16 + z / 4) % 256 :: (z * 64 + w) % 256 ::
        b64Prefix rest
    | _, _, _, _ => []
  | _ => []

/-- A text decoder that hands back the text it decoded before a base64 failure together
with the error, as a decoder passing on the result of `io.ReadAll` unchecked does. The
source of `parseText` is absent, and the specification does not say what the decoder
returns beside an error. -/
def partialParseText (body : BodyReader) (enc : Encoding) (cte : ContentTransferEncoding) :
    GoResult String × Nat :=
  match refParseText body enc cte with
  | ((_, some err), k) =>
    ((match cte with
      | .cteBase64 =>
        stringOf (b64Prefix ((body.buffered ++ body.src).filter
          (fun c => c != 10 && c != 13)))
      | _ => "", some err), k)
  | ((text, none), k) => ((text, none), k)

/-- The reference environment with the text decoder `partialParseText`. -/
def partialTextEnv : Env := { refEnv with parseText := partialParseText }

/-- A base64 `text/plain` message whose body stops being base64 after one group. -/
def partialBase64Message : Bytes :=
  bytesOf "Content-Type: text/plain\nContent-Transfer-Encoding: base64\n\nSGVs!!!!"

/-- The header `mail.ReadMessage` reads from `partialBase64Message`. -/
def partialBase64Header : MailHeader :=
  [("Content-Type", "text/plain"), ("Content-Transfer-Encoding", "base64")]

/-- A `multipart/mixed` message whose body never shows the declared boundary. -/
def brokenMultipartMessage : Bytes :=
  bytesOf "Content-Type: multipart/mixed; boundary=b1\n\n--other\n\nhi\n--other--\n"

/-- A large single-part `application/pdf` message: a 31-byte header block and a
6000-byte body. -/
def largePdfMessage : Bytes :=
  bytesOf "Content-Type: application/pdf\n\n" ++ List.replicate 6000 37

/-! ## Basic facts -/

theorem normalizeMultilineString_empty : normalizeMultilineString "" = "" := by
  decide

theorem normalizeTexts_headers_only (headers : Headers) :
    normalizeTexts { Headers := headers } = { Headers := headers } := by
  simp [normalizeTexts, normalizeMultilineString_empty]

/-- A content type starting with `multipart/` is none of the three text types. -/
theorem multipart_not_text (ct : String)
    (h : hasPrefix ct contentTypeMultipartPrefix = true) :
    ct ≠ contentTypeTextPlain ∧ ct ≠ contentTypeTextEnriched ∧ ct ≠ contentTypeTextHtml := by
  refine ⟨?_, ?_, ?_⟩ <;> intro hc <;> rw [hc] at h <;> revert h <;> decide

/-- Once framing, header parsing and transfer-encoding resolution have succeeded,
`ParseEmail` is the dispatch on the content type followed by line normalisation. -/
theorem ParseEmail_eq_dispatch (env : Env) (r : Reader) (opts : List ParseOption)
    (header : MailHeader) (buffered : Bytes) (n : Nat) (headers : Headers)
    (cte : ContentTransferEncoding)
    (hmsg : env.ReadMessage r = (.ok (header, buffered), n))
    (hhdr : env.parseHeaders header = (headers, none))
    (hcte : env.parseContentTransferEncoding (header.Get "Content-Transfer-Encoding")
      = (cte, none)) :
    ParseEmail env r opts =
      match dispatch env (applyOptions opts) opts
          { Header := header, Body := { buffered := buffered, src := r.pull n } }
          { Headers := headers }
          (env.charsetLookup (headers.ContentType.Params.get "charset")) cte (r.pull n) with
      | ((email, some err), r2) => ((email, some err), r2)
      | ((email, none), r2) => ((normalizeTexts email, none), r2) := by
  simp only [ParseEmail, hmsg, hhdr, hcte]

/-- Options that keep a set `SkipAttachments` flag set leave it set. -/
theorem foldl_keeps_skip (post : List ParseOption)
    (hpost : ∀ o ∈ post, ∀ p : ParseOptions,
      p.SkipAttachments = true → (o p).SkipAttachments = true) :
    ∀ init : ParseOptions, init.SkipAttachments = true →
      (post.foldl (fun options opt => opt options) init).SkipAttachments = true := by
  induction post with
  | nil => intro init h; simpa using h
  | cons o os ih =>
    intro init h
    simp only [List.foldl_cons]
    exact ih (fun o2 ho2 => hpost o2 (List.mem_cons_of_mem _ ho2)) _
      (hpost o (List.mem_cons_self _ _) init h)

/-- Options that never set the `SkipAttachments` flag leave it clear. -/
theorem foldl_keeps_clear (opts : List ParseOption)
    (hopts : ∀ o ∈ opts, ∀ p : ParseOptions,
      p.SkipAttachments = false → (o p).SkipAttachments = false) :
    ∀ init : ParseOptions, init.SkipAttachments = false →
      (opts.foldl (fun options opt => opt options) init).SkipAttachments = false := by
  induction opts with
  | nil => intro init h; simpa using h
  | cons o os ih =>
    intro init h
    simp only [List.foldl_cons]
    exact ih (fun o2 ho2 => hopts o2 (List.mem_cons_of_mem _ ho2)) _
      (hopts o (List.mem_cons_self _ _) init h)

/-- The option `WithParseSkipAttachments` followed only by options that keep the flag
sets it. -/
theorem applyOptions_skip (pre post : List ParseOption)
    (hpost : ∀ o ∈ post, ∀ p : ParseOptions,
      p.SkipAttachments = true → (o p).SkipAttachments = true) :
    (applyOptions (pre ++ WithParseSkipAttachments :: post)).SkipAttachments = true := by
  simp only [applyOptions, List.foldl_append, List.foldl_cons]
  exact foldl_keeps_skip post hpost _ rfl

/-- The error of the dispatch is the error of the selected branch, wrapped with the
message of that branch. -/
theorem dispatch_error (env : Env) (options : ParseOptions) (opts : List ParseOption)
    (header : MailHeader) (body : BodyReader) (headers : Headers)
    (cte : ContentTransferEncoding) (r : Reader) :
    (dispatch env options opts { Header := header, Body := body } { Headers := headers }
        (env.charsetLookup (headers.ContentType.Params.get "charset")) cte r).1.2 =
      match selectedBranch headers.ContentType.ContentType options.SkipAttachments with
      | none => none
      | some stage =>
        (branchError env opts body headers cte stage).map (fun err =>
          Error.wrap (stageFormat stage)
            (stageArgs { stage := stage, cause := err,
                         contentType := headers.ContentType.ContentType,
                         boundary := headers.ContentType.Params.get "boundary" }) err) := by
  simp only [dispatch, selectedBranch]
  split_ifs <;> simp only [branchError, stageFormat, stageArgs, fmtErrorf] <;>
    (try split) <;> simp_all

/-- The Email a failed dispatch returns: the parsed headers and, for a text type, the
text field holding what the text decoder returned with its error. -/
theorem dispatch_error_email (env : Env) (options : ParseOptions)
    (opts : List ParseOption) (msg : Message) (headers : Headers) (encoding : Encoding)
    (cte : ContentTransferEncoding) (r : Reader)
    (herr : (dispatch env options opts msg { Headers := headers } encoding cte r).1.2
      ≠ none) :
    (dispatch env options opts msg { Headers := headers } encoding cte r).1.1 =
      if headers.ContentType.ContentType = contentTypeTextPlain then
        { Headers := headers, Text := (env.parseText msg.Body encoding cte).1.1 }
      else if headers.ContentType.ContentType = contentTypeTextEnriched then
        { Headers := headers, EnrichedText := (env.parseText msg.Body encoding cte).1.1 }
      else if headers.ContentType.ContentType = contentTypeTextHtml then
        { Headers := headers, HTML := (env.parseText msg.Body encoding cte).1.1 }
      else { Headers := headers } := by
  revert herr
  simp only [dispatch]
  split_ifs <;> (try split) <;> simp_all

/-- The reader `ParseEmail` leaves behind is the input reader advanced by some number
of bytes. -/
theorem dispatch_reader (env : Env) (options : ParseOptions) (opts : List ParseOption)
    (msg : Message) (email : Email) (encoding : Encoding) (cte : ContentTransferEncoding)
    (r : Reader) :
    ∃ k, (dispatch env options opts msg email encoding cte r).2 = r.drop k := by
  simp only [dispatch, Reader.pull]
  split_ifs <;> first
    | (split <;> exact ⟨_, rfl⟩)
    | exact ⟨0, rfl⟩

theorem ParseEmail_reader (env : Env) (r : Reader) (opts : List ParseOption) :
    ∃ m, (ParseEmail env r opts).2 = r.drop m := by
  rcases hmsg : env.ReadMessage r with ⟨err | ⟨header, buffered⟩, n⟩
  · exact ⟨n, by simp [ParseEmail, hmsg, Reader.pull]⟩
  · rcases hhdr : env.parseHeaders header with ⟨headers, _ | e⟩
    · rcases hcte : env.parseContentTransferEncoding
        (header.Get "Content-Transfer-Encoding") with ⟨cte, _ | e⟩
      · rw [ParseEmail_eq_dispatch env r opts header buffered n headers cte hmsg hhdr hcte]
        obtain ⟨k, hk⟩ := dispatch_reader env (applyOptions opts) opts
          { Header := header, Body := { buffered := buffered, src := r.pull n } }
          { Headers := headers }
          (env.charsetLookup (headers.ContentType.Params.get "charset")) cte (r.pull n)
        rcases hd : dispatch env (applyOptions opts) opts
          { Header := header, Body := { buffered := buffered, src := r.pull n } }
          { Headers := headers }
          (env.charsetLookup (headers.ContentType.Params.get "charset")) cte (r.pull n)
          with ⟨⟨email, _ | err⟩, r2⟩ <;>
        · rw [hd] at hk
          simp only [Reader.pull, List.drop_drop] at hk
          exact ⟨_, hk⟩
      · exact ⟨n, by simp [ParseEmail, hmsg, hhdr, hcte, Reader.pull]⟩
    · exact ⟨n, by simp [ParseEmail, hmsg, hhdr, Reader.pull]⟩

/-- What the tee buffer holds after the reader advanced by `m` bytes. -/
theorem teeBytes_drop (r : Reader) (m : Nat) : teeBytes r (r.drop m) = r.take m := by
  simp only [teeBytes, List.length_drop]
  rcases Nat.lt_or_ge m r.length with h | h
  · congr 1; omega
  · rw [List.take_of_length_le (by omega), List.take_of_length_le h]

/-- With the skip option alone and a top-level Content-Type that is neither text nor
multipart, `StripEmailAttachments` returns the bytes message framing pulled. -/
theorem strip_other (env : Env) (r : Reader)
    (header : MailHeader) (buffered : Bytes) (n : Nat) (headers : Headers)
    (cte : ContentTransferEncoding)
    (hmsg : env.ReadMessage r = (.ok (header, buffered), n))
    (hhdr : env.parseHeaders header = (headers, none))
    (hcte : env.parseContentTransferEncoding (header.Get "Content-Transfer-Encoding")
      = (cte, none))
    (hplain : headers.ContentType.ContentType ≠ contentTypeTextPlain)
    (henriched : headers.ContentType.ContentType ≠ contentTypeTextEnriched)
    (hhtml : headers.ContentType.ContentType ≠ contentTypeTextHtml)
    (hmulti : hasPrefix headers.ContentType.ContentType contentTypeMultipartPrefix = false) :
    StripEmailAttachments env r = (r.take n, none) := by
  have hskip := applyOptions_skip [] [] (by simp)
  simp only [List.nil_append] at hskip
  have hp : ParseEmail env r [WithParseSkipAttachments]
      = (({ Headers := headers }, none), r.drop n) := by
    rw [ParseEmail_eq_dispatch env r _ header buffered n headers cte hmsg hhdr hcte]
    simp only [dispatch, hplain, henriched, hhtml, hmulti, if_false, hskip]
    simp [normalizeTexts_headers_only, Reader.pull]
  simp only [StripEmailAttachments, hp, teeBytes_drop]

/-- On a message that starts with the header block `Content-Type: application/pdf`,
the reference `mail.ReadMessage` pulls one buffer, or the whole input if it is shorter. -/
theorem refReadMessage_pdf (body : Bytes) (n : Nat)
    (hn : min (31 + body.length) 4096 = n) :
    refEnv.ReadMessage (bytesOf "Content-Type: application/pdf\n\n" ++ body) =
      (.ok ([("Content-Type", "application/pdf")],
        ((bytesOf "Content-Type: application/pdf\n\n" ++ body).take n).drop 31), n) := by
  have h1 : readHeaderLines [] [] (bytesOf "Content-Type: application/pdf\n\n" ++ body)
      = some ([bytesOf "Content-Type: application/pdf"], body) := rfl
  have h2 : headerFields [bytesOf "Content-Type: application/pdf"]
      = some [("Content-Type", "application/pdf")] := by decide
  have h3 : (bytesOf "Content-Type: application/pdf\n\n" ++ body).length
      = 31 + body.length := by
    rw [List.length_append]
    rfl
  subst hn
  simp only [refEnv, refReadMessage, h1, h2, h3, bufferedPull, bufioSize,
    Nat.add_sub_cancel]

/-- On `largePdfMessage` the reference environment returns the first 4096 bytes. -/
theorem strip_largePdfMessage :
    StripEmailAttachments refEnv largePdfMessage = (largePdfMessage.take 4096, none) := by
  have hn : min (31 + (List.replicate 6000 37).length) 4096 = 4096 := by
    rw [List.length_replicate]
    decide
  have hmsg := refReadMessage_pdf (List.replicate 6000 37) 4096 hn
  unfold largePdfMessage
  exact strip_other refEnv _ [("Content-Type", "application/pdf")] _ 4096
    { ContentType := { ContentType := "application/pdf" },
      Other := [("Content-Type", "application/pdf")] } .cte7bit
    hmsg (by decide) (by decide) (by decide) (by decide) (by decide) (by decide)

theorem largePdfMessage_length : largePdfMessage.length = 6031 := by
  simp only [largePdfMessage, List.length_append, List.length_replicate]
  rfl

/-! ## Claims -/

/-- C1: when `ParseEmail` succeeds on a message whose resolved top-level Content-Type is
exactly `text/plain`, `Text` is the line normalizer applied to what the text decoder
returns for the message body with the resolved charset and transfer encoding,
`EnrichedText` and `HTML` are empty, and `InlineFiles` and `AttachedFiles` are empty,
whatever options are passed. -/
theorem parseEmail_text_plain (env : Env) (r : Reader) (opts : List ParseOption)
    (header : MailHeader) (buffered : Bytes) (n : Nat) (headers : Headers)
    (cte : ContentTransferEncoding)
    (hmsg : env.ReadMessage r = (.ok (header, buffered), n))
    (hhdr : env.parseHeaders header = (headers, none))
    (hcte : env.parseContentTransferEncoding (header.Get "Content-Transfer-Encoding")
      = (cte, none))
    (hct : headers.ContentType.ContentType = contentTypeTextPlain)
    (hok : (ParseEmail env r opts).1.2 = none) :
    (ParseEmail env r opts).1.1.Text =
        normalizeMultilineString
          (env.parseText { buffered := buffered, src := r.pull n }
            (env.charsetLookup (headers.ContentType.Params.get "charset")) cte).1.1
      ∧ (ParseEmail env r opts).1.1.EnrichedText = ""
      ∧ (ParseEmail env r opts).1.1.HTML = ""
      ∧ (ParseEmail env r opts).1.1.InlineFiles = []
      ∧ (ParseEmail env r opts).1.1.AttachedFiles = [] := by
  rw [ParseEmail_eq_dispatch env r opts header buffered n headers cte hmsg hhdr hcte] at hok ⊢
  simp only [dispatch, hct, if_true] at hok ⊢
  rcases hres : env.parseText { buffered := buffered, src := r.pull n }
      (env.charsetLookup (headers.ContentType.Params.get "charset")) cte
    with ⟨⟨text, _ | err⟩, k⟩
  · simp [hres, normalizeTexts, normalizeMultilineString_empty]
  · simp [hres] at hok

/-- Witness of C1 on `plainMessage`. -/
theorem parseEmail_text_plain_witness :
    (ParseEmail refEnv plainMessage [WithParseSkipAttachments]).1.2 = none
      ∧ (ParseEmail refEnv plainMessage [WithParseSkipAttachments]).1.1.Text
          = "hello\nworld"
      ∧ (ParseEmail refEnv plainMessage [WithParseSkipAttachments]).1.1.EnrichedText = ""
      ∧ (ParseEmail refEnv plainMessage [WithParseSkipAttachments]).1.1.HTML = ""
      ∧ (ParseEmail refEnv plainMessage [WithParseSkipAttachments]).1.1.InlineFiles = []
      ∧ (ParseEmail refEnv plainMessage [WithParseSkipAttachments]).1.1.AttachedFiles = [] :=
  ⟨by decide,
    (parseEmail_text_plain refEnv plainMessage [WithParseSkipAttachments] plainHeader
      (bytesOf "hello\r\nworld") plainMessage.length plainHeaders .cte7bit
      (by decide) (by decide) (by decide) (by decide) (by decide)).imp_left
      (fun h => h.trans (by decide))⟩

/-- C2: for a message whose resolved top-level Content-Type starts with `multipart/` and
for which the Multipart Descender, called with the Content-Type's boundary parameter and
the caller's options, succeeds, the returned `Text`, `EnrichedText` and `HTML` are the
line-normalized descender `text`, `enrichedText` and `html`, and `InlineFiles` and
`AttachedFiles` are exactly the descender's two sequences. -/
theorem parseEmail_multipart (env : Env) (r : Reader) (opts : List ParseOption)
    (header : MailHeader) (buffered : Bytes) (n : Nat) (headers : Headers)
    (cte : ContentTransferEncoding)
    (hmsg : env.ReadMessage r = (.ok (header, buffered), n))
    (hhdr : env.parseHeaders header = (headers, none))
    (hcte : env.parseContentTransferEncoding (header.Get "Content-Transfer-Encoding")
      = (cte, none))
    (hct : hasPrefix headers.ContentType.ContentType contentTypeMultipartPrefix = true)
    (hpart : (env.parsePart { buffered := buffered, src := r.pull n } headers.ContentType
      (headers.ContentType.Params.get "boundary") opts).1.2 = none) :
    (ParseEmail env r opts).1 =
      ({ Headers := headers
         Text := normalizeMultilineString
           (env.parsePart { buffered := buffered, src := r.pull n } headers.ContentType
             (headers.ContentType.Params.get "boundary") opts).1.1.text
         EnrichedText := normalizeMultilineString
           (env.parsePart { buffered := buffered, src := r.pull n } headers.ContentType
             (headers.ContentType.Params.get "boundary") opts).1.1.enrichedText
         HTML := normalizeMultilineString
           (env.parsePart { buffered := buffered, src := r.pull n } headers.ContentType
             (headers.ContentType.Params.get "boundary") opts).1.1.html
         InlineFiles :=
           (env.parsePart { buffered := buffered, src := r.pull n } headers.ContentType
             (headers.ContentType.Params.get "boundary") opts).1.1.InlineFiles
         AttachedFiles :=
           (env.parsePart { buffered := buffered, src := r.pull n } headers.ContentType
             (headers.ContentType.Params.get "boundary") opts).1.1.AttachedFiles }, none) := by
  obtain ⟨h1, h2, h3⟩ := multipart_not_text _ hct
  rw [ParseEmail_eq_dispatch env r opts header buffered n headers cte hmsg hhdr hcte]
  simp only [dispatch, h1, h2, h3, hct, if_true, if_false]
  rcases hres : env.parsePart { buffered := buffered, src := r.pull n } headers.ContentType
      (headers.ContentType.Params.get "boundary") opts with ⟨⟨bodies, _ | err⟩, k⟩
  · simp [normalizeTexts]
  · simp [hres] at hpart

set_option maxRecDepth 8000 in
/-- Witness of C2 on `multipartMessage`. -/
theorem parseEmail_multipart_witness :
    (ParseEmail refEnv multipartMessage []).1 =
      ({ Headers := multipartHeaders
         Text := "hi\nthere"
         HTML := "Hello"
         InlineFiles := [{ ContentID := "img1", ContentType := { ContentType := "image/png" },
                           Data := bytesOf "PNG" }]
         AttachedFiles := [{ ContentType := { ContentType := "application/pdf" },
                             Filename := "report.pdf", Data := bytesOf "PDF" }] }, none) :=
  (parseEmail_multipart refEnv multipartMessage [] multipartHeader
    (multipartMessage.drop 46) multipartMessage.length multipartHeaders .cte7bit
    (by decide) (by decide) (by decide) (by decide) (by decide)).trans (by decide)

/-- C3: for a message whose resolved top-level Content-Type is none of `text/plain`,
`text/enriched`, `text/html` and does not start with `multipart/`, when `ParseEmail` is
called with no options and the body decodes successfully, `AttachedFiles` holds exactly
the file decoded from the body with the top-level headers and transfer encoding,
`InlineFiles` is empty and the three text fields are empty. -/
theorem parseEmail_other_no_options (env : Env) (r : Reader)
    (header : MailHeader) (buffered : Bytes) (n : Nat) (headers : Headers)
    (cte : ContentTransferEncoding)
    (hmsg : env.ReadMessage r = (.ok (header, buffered), n))
    (hhdr : env.parseHeaders header = (headers, none))
    (hcte : env.parseContentTransferEncoding (header.Get "Content-Transfer-Encoding")
      = (cte, none))
    (hplain : headers.ContentType.ContentType ≠ contentTypeTextPlain)
    (henriched : headers.ContentType.ContentType ≠ contentTypeTextEnriched)
    (hhtml : headers.ContentType.ContentType ≠ contentTypeTextHtml)
    (hmulti : hasPrefix headers.ContentType.ContentType contentTypeMultipartPrefix = false)
    (hdec : (env.decodeAttachmentFileFromBody { buffered := buffered, src := r.pull n }
      headers cte).1.2 = none) :
    (ParseEmail env r []).1 =
      ({ Headers := headers
         Text := ""
         EnrichedText := ""
         HTML := ""
         InlineFiles := []
         AttachedFiles :=
           [(env.decodeAttachmentFileFromBody { buffered := buffered, src := r.pull n }
             headers cte).1.1] }, none) := by
  rw [ParseEmail_eq_dispatch env r [] header buffered n headers cte hmsg hhdr hcte]
  simp only [dispatch, hplain, henriched, hhtml, hmulti, if_false]
  rcases hres : env.decodeAttachmentFileFromBody { buffered := buffered, src := r.pull n }
      headers cte with ⟨⟨afl, _ | err⟩, k⟩
  · simp [applyOptions, normalizeTexts, normalizeMultilineString_empty]
  · simp [hres] at hdec

/-- Witness of C3 on `pdfMessage`. -/
theorem parseEmail_other_no_options_witness :
    (ParseEmail refEnv pdfMessage []).1 =
      ({ Headers := pdfHeaders
         AttachedFiles := [{ ContentType := pdfHeaders.ContentType, Filename := "x.pdf",
                             Data := bytesOf "Hello" }] }, none) :=
  (parseEmail_other_no_options refEnv pdfMessage pdfHeader (bytesOf "SGVsbG8=")
    pdfMessage.length pdfHeaders .cteBase64
    (by decide) (by decide) (by decide) (by decide) (by decide) (by decide) (by decide)
    (by decide)).trans (by decide)

/-- C4 fails as stated: with `WithParseSkipAttachments` first in the option list and a
caller-defined option after it that clears the flag, the body of a single-part
`application/pdf` message is decoded and attached. -/
theorem skip_option_overridden_counterexample :
    WithParseSkipAttachments ∈ [WithParseSkipAttachments, clearSkipAttachments]
      ∧ (ParseEmail refEnv pdfMessage
          [WithParseSkipAttachments, clearSkipAttachments]).1.1.Headers.ContentType.ContentType
          = "application/pdf"
      ∧ (ParseEmail refEnv pdfMessage
          [WithParseSkipAttachments, clearSkipAttachments]).1.1.AttachedFiles
          = [{ ContentType := pdfHeaders.ContentType, Filename := "x.pdf",
               Data := bytesOf "Hello" }] :=
  ⟨List.mem_cons_self _ _, by decide, by decide⟩

/-- C4, amended: when `WithParseSkipAttachments` is in the option list and every option
after it keeps a set `SkipAttachments` flag set, then for a message whose top-level
Content-Type is neither a text type nor `multipart/*` the body is never decoded
(whatever the attachment decoder is, it is not consulted and nothing is read after
message framing): `ParseEmail` succeeds once framing, header parsing and
transfer-encoding resolution succeed, and the returned Email has only its Headers set.
With an option list none of whose members sets the flag, `SkipAttachments` is false. -/
theorem parseEmail_other_skip (env : Env) (r : Reader) (pre post : List ParseOption)
    (header : MailHeader) (buffered : Bytes) (n : Nat) (headers : Headers)
    (cte : ContentTransferEncoding)
    (hmsg : env.ReadMessage r = (.ok (header, buffered), n))
    (hhdr : env.parseHeaders header = (headers, none))
    (hcte : env.parseContentTransferEncoding (header.Get "Content-Transfer-Encoding")
      = (cte, none))
    (hplain : headers.ContentType.ContentType ≠ contentTypeTextPlain)
    (henriched : headers.ContentType.ContentType ≠ contentTypeTextEnriched)
    (hhtml : headers.ContentType.ContentType ≠ contentTypeTextHtml)
    (hmulti : hasPrefix headers.ContentType.ContentType contentTypeMultipartPrefix = false)
    (hpost : ∀ o ∈ post, ∀ p : ParseOptions,
      p.SkipAttachments = true → (o p).SkipAttachments = true) :
    (∀ dec, ParseEmail { env with decodeAttachmentFileFromBody := dec } r
        (pre ++ WithParseSkipAttachments :: post)
        = (({ Headers := headers
              Text := ""
              EnrichedText := ""
              HTML := ""
              InlineFiles := []
              AttachedFiles := [] }, none), r.pull n))
      ∧ (∀ others : List ParseOption,
          (∀ o ∈ others, ∀ p : ParseOptions,
            p.SkipAttachments = false → (o p).SkipAttachments = false) →
          (applyOptions others).SkipAttachments = false) := by
  refine ⟨fun dec => ?_, fun others hothers => foldl_keeps_clear others hothers _ rfl⟩
  rw [ParseEmail_eq_dispatch { env with decodeAttachmentFileFromBody := dec } r _ header
    buffered n headers cte hmsg hhdr hcte]
  simp only [dispatch, hplain, henriched, hhtml, hmulti, if_false,
    applyOptions_skip pre post hpost]
  simp [normalizeTexts_headers_only]

/-- Witness of the amended C4 on `pdfMessage`, the skip option in last position. -/
theorem parseEmail_other_skip_witness :
    ParseEmail refEnv pdfMessage [clearSkipAttachments, WithParseSkipAttachments]
        = (({ Headers := pdfHeaders }, none), [])
      ∧ (applyOptions [clearSkipAttachments]).SkipAttachments = false :=
  ⟨((parseEmail_other_skip refEnv pdfMessage [clearSkipAttachments] [] pdfHeader
      (bytesOf "SGVsbG8=") pdfMessage.length pdfHeaders .cteBase64
      (by decide) (by decide) (by decide) (by decide) (by decide) (by decide) (by decide)
      (by simp)).1 refEnv.decodeAttachmentFileFromBody).trans (by decide),
    (parseEmail_other_skip refEnv pdfMessage [clearSkipAttachments] [] pdfHeader
      (bytesOf "SGVsbG8=") pdfMessage.length pdfHeaders .cteBase64
      (by decide) (by decide) (by decide) (by decide) (by decide) (by decide) (by decide)
      (by simp)).2 [clearSkipAttachments] (by simp [clearSkipAttachments])⟩

/-- C5: when `ParseEmail` succeeds on a message whose top-level Content-Type is exactly
`text/enriched`, only `EnrichedText` is populated, with the line-normalized decoded
body; when it is exactly `text/html`, only `HTML` is populated, with the line-normalized
decoded body. In both cases `Text`, the other text field, `InlineFiles` and
`AttachedFiles` are empty. -/
theorem parseEmail_text_enriched_html (env : Env) (r : Reader) (opts : List ParseOption)
    (header : MailHeader) (buffered : Bytes) (n : Nat) (headers : Headers)
    (cte : ContentTransferEncoding)
    (hmsg : env.ReadMessage r = (.ok (header, buffered), n))
    (hhdr : env.parseHeaders header = (headers, none))
    (hcte : env.parseContentTransferEncoding (header.Get "Content-Transfer-Encoding")
      = (cte, none))
    (hct : headers.ContentType.ContentType = contentTypeTextEnriched
      ∨ headers.ContentType.ContentType = contentTypeTextHtml)
    (hok : (ParseEmail env r opts).1.2 = none) :
    (headers.ContentType.ContentType = contentTypeTextEnriched →
        (ParseEmail env r opts).1.1.EnrichedText =
            normalizeMultilineString
              (env.parseText { buffered := buffered, src := r.pull n }
                (env.charsetLookup (headers.ContentType.Params.get "charset")) cte).1.1
          ∧ (ParseEmail env r opts).1.1.HTML = "")
      ∧ (headers.ContentType.ContentType = contentTypeTextHtml →
        (ParseEmail env r opts).1.1.HTML =
            normalizeMultilineString
              (env.parseText { buffered := buffered, src := r.pull n }
                (env.charsetLookup (headers.ContentType.Params.get "charset")) cte).1.1
          ∧ (ParseEmail env r opts).1.1.EnrichedText = "")
      ∧ (ParseEmail env r opts).1.1.Text = ""
      ∧ (ParseEmail env r opts).1.1.InlineFiles = []
      ∧ (ParseEmail env r opts).1.1.AttachedFiles = [] := by
  have hne1 : contentTypeTextEnriched ≠ contentTypeTextPlain := by decide
  have hne2 : contentTypeTextHtml ≠ contentTypeTextPlain := by decide
  have hne3 : contentTypeTextHtml ≠ contentTypeTextEnriched := by decide
  rw [ParseEmail_eq_dispatch env r opts header buffered n headers cte hmsg hhdr hcte] at hok ⊢
  rcases hres : env.parseText { buffered := buffered, src := r.pull n }
      (env.charsetLookup (headers.ContentType.Params.get "charset")) cte
    with ⟨⟨text, _ | err⟩, k⟩
  · rcases hct with hct | hct
    · simp [dispatch, hct, hne1, hne3.symm, hres, normalizeTexts,
        normalizeMultilineString_empty]
    · simp [dispatch, hct, hne2, hne3, hres, normalizeTexts,
        normalizeMultilineString_empty]
  · rcases hct with hct | hct
    · simp [dispatch, hct, hne1, hres] at hok
    · simp [dispatch, hct, hne2, hne3, hres] at hok

/-- Witness of C5 on `enrichedMessage` and on `htmlMessage`. -/
theorem parseEmail_text_enriched_html_witness :
    ((ParseEmail refEnv enrichedMessage []).1.1.EnrichedText = "<bold>hi</bold>\n"
        ∧ (ParseEmail refEnv enrichedMessage []).1.1.HTML = "")
      ∧ ((ParseEmail refEnv htmlMessage []).1.1.HTML = "<b>hi</b>"
        ∧ (ParseEmail refEnv htmlMessage []).1.1.EnrichedText = "") :=
  ⟨((parseEmail_text_enriched_html refEnv enrichedMessage []
      [("Content-Type", "text/enriched")] (bytesOf "<bold>hi</bold>\r\n")
      enrichedMessage.length
      { ContentType := { ContentType := "text/enriched" },
        Other := [("Content-Type", "text/enriched")] } .cte7bit
      (by decide) (by decide) (by decide) (by decide) (by decide)).1 (by decide)).imp_left
      (fun h => h.trans (by decide)),
    ((parseEmail_text_enriched_html refEnv htmlMessage []
      [("Content-Type", "text/html"), ("Content-Transfer-Encoding", "base64")]
      (bytesOf "PGI+aGk8L2I+") htmlMessage.length
      { ContentType := { ContentType := "text/html" },
        Other := [("Content-Type", "text/html"), ("Content-Transfer-Encoding", "base64")] }
      .cteBase64
      (by decide) (by decide) (by decide) (by decide) (by decide)).2.1 (by decide)).imp_left
      (fun h => h.trans (by decide))⟩

/-- C6 fails as stated: on a `text/plain` message with the transfer-encoding token
`bogus` the resolver fails and `ParseEmail` fails, but the Email returned with the error
is not the empty Email: its `Headers` field holds the parsed headers. -/
theorem cte_failure_headers_populated_counterexample :
    (refEnv.parseContentTransferEncoding "bogus").2 ≠ none
      ∧ (ParseEmail refEnv bogusMessage []).1.2 ≠ none
      ∧ (ParseEmail refEnv bogusMessage []).1.1.Headers.ContentType.ContentType
          = "text/plain"
      ∧ (ParseEmail refEnv bogusMessage []).1.1 ≠ {} := by
  decide

/-- C6, amended: when the transfer-encoding resolver fails on the top-level
Content-Transfer-Encoding token, `ParseEmail` fails, whatever the top-level Content-Type
is and whatever the options; `Text`, `EnrichedText`, `HTML`, `InlineFiles` and
`AttachedFiles` of the returned Email are empty, and `Headers` holds the parsed headers
(when header parsing succeeded; otherwise `ParseEmail` has already failed there). -/
theorem parseEmail_cte_failure (env : Env) (r : Reader) (opts : List ParseOption)
    (header : MailHeader) (buffered : Bytes) (n : Nat) (err : Error)
    (hmsg : env.ReadMessage r = (.ok (header, buffered), n))
    (hcte : (env.parseContentTransferEncoding
      (header.Get "Content-Transfer-Encoding")).2 = some err) :
    (ParseEmail env r opts).1.2 ≠ none
      ∧ (ParseEmail env r opts).1.1.Text = ""
      ∧ (ParseEmail env r opts).1.1.EnrichedText = ""
      ∧ (ParseEmail env r opts).1.1.HTML = ""
      ∧ (ParseEmail env r opts).1.1.InlineFiles = []
      ∧ (ParseEmail env r opts).1.1.AttachedFiles = []
      ∧ (∀ headers, env.parseHeaders header = (headers, none) →
          (ParseEmail env r opts).1 =
            ({ Headers := headers }, some (fmtErrorf
              "letters.ParseEmail: cannot parse Content-Transfer-Encoding: %w" [] err))) := by
  rcases hc : env.parseContentTransferEncoding (header.Get "Content-Transfer-Encoding")
    with ⟨cte, e⟩
  rw [hc] at hcte
  simp only at hcte
  subst hcte
  rcases hhdr : env.parseHeaders header with ⟨headers, _ | e⟩
  · simp [ParseEmail, hmsg, hhdr, hc]
  · simp [ParseEmail, hmsg, hhdr]

/-- Witness of the amended C6 on `bogusMessage`. -/
theorem parseEmail_cte_failure_witness :
    (ParseEmail refEnv bogusMessage [WithParseSkipAttachments]).1.2 ≠ none
      ∧ (ParseEmail refEnv bogusMessage [WithParseSkipAttachments]).1.1.Text = ""
      ∧ (ParseEmail refEnv bogusMessage [WithParseSkipAttachments]).1.1.EnrichedText = ""
      ∧ (ParseEmail refEnv bogusMessage [WithParseSkipAttachments]).1.1.HTML = ""
      ∧ (ParseEmail refEnv bogusMessage [WithParseSkipAttachments]).1.1.InlineFiles = []
      ∧ (ParseEmail refEnv bogusMessage [WithParseSkipAttachments]).1.1.AttachedFiles = []
      ∧ (ParseEmail refEnv bogusMessage [WithParseSkipAttachments]).1 =
          ({ Headers :=
              { ContentType := { ContentType := "text/plain" },
                Other := [("Content-Type", "text/plain"),
                  ("Content-Transfer-Encoding", "bogus")] } },
            some (fmtErrorf "letters.ParseEmail: cannot parse Content-Transfer-Encoding: %w"
              [] (.base "unknown Content-Transfer-Encoding"))) :=
  (parseEmail_cte_failure refEnv bogusMessage [WithParseSkipAttachments]
    [("Content-Type", "text/plain"), ("Content-Transfer-Encoding", "bogus")]
    (bytesOf "hello") bogusMessage.length (.base "unknown Content-Transfer-Encoding")
    (by decide) (by decide)).imp id (fun h => h.imp id (fun h => h.imp id (fun h =>
      h.imp id (fun h => h.imp id (fun h => h.imp id (fun h => h _ (by decide)))))))

/-- C7: `ParseEmail` returns an error exactly when one of its stages fails, the stages
being tried in the order framing, header parsing, transfer-encoding resolution, selected
branch; the error wraps the error of the first failing stage under a message that
identifies the stage (distinct stages have distinct messages), and for a multipart
failure it names the content type and the boundary. -/
theorem parseEmail_error_is_first_failure (env : Env) (r : Reader)
    (opts : List ParseOption) :
    (ParseEmail env r opts).1.2 =
        (firstFailure env r opts).map
          (fun f => Error.wrap (stageFormat f.stage) (stageArgs f) f.cause)
      ∧ Function.Injective stageFormat
      ∧ (∀ f, firstFailure env r opts = some f → f.stage = .multipart →
          ∃ header buffered n, env.ReadMessage r = (.ok (header, buffered), n)
            ∧ stageArgs f = [(env.parseHeaders header).1.ContentType.ContentType,
                (env.parseHeaders header).1.ContentType.Params.get "boundary"]) := by
  refine ⟨?_, ?_, ?_⟩
  · rcases hmsg : env.ReadMessage r with ⟨err | ⟨header, buffered⟩, n⟩
    · simp [ParseEmail, firstFailure, hmsg, fmtErrorf, stageFormat, stageArgs]
    · rcases hhdr : env.parseHeaders header with ⟨headers, _ | e⟩
      · rcases hcte : env.parseContentTransferEncoding
          (header.Get "Content-Transfer-Encoding") with ⟨cte, _ | e⟩
        · rw [ParseEmail_eq_dispatch env r opts header buffered n headers cte hmsg hhdr
            hcte]
          have hd := dispatch_error env (applyOptions opts) opts header
            { buffered := buffered, src := r.pull n } headers cte (r.pull n)
          simp only [firstFailure, hmsg, hhdr, hcte]
          rcases hres : dispatch env (applyOptions opts) opts
            { Header := header, Body := { buffered := buffered, src := r.pull n } }
            { Headers := headers }
            (env.charsetLookup (headers.ContentType.Params.get "charset")) cte (r.pull n)
            with ⟨⟨email, _ | err⟩, r2⟩ <;>
          · rw [hres] at hd
            simp only at hd ⊢
            rw [hd]
            cases selectedBranch headers.ContentType.ContentType
              (applyOptions opts).SkipAttachments
            · rfl
            · rw [Option.map_map]
              rfl
        · simp [ParseEmail, firstFailure, hmsg, hhdr, hcte, fmtErrorf, stageFormat,
            stageArgs]
      · simp [ParseEmail, firstFailure, hmsg, hhdr, fmtErrorf, stageFormat, stageArgs]
  · intro a b hab
    cases a <;> cases b <;> first | rfl | (revert hab; decide)
  · intro f hf hstage
    rcases hmsg : env.ReadMessage r with ⟨err | ⟨header, buffered⟩, n⟩
    · simp only [firstFailure, hmsg, Option.some.injEq] at hf
      subst hf
      simp at hstage
    · refine ⟨header, buffered, n, rfl, ?_⟩
      simp only [firstFailure, hmsg] at hf
      split at hf
      · simp only [Option.some.injEq] at hf
        subst hf
        simp at hstage
      · split at hf
        · simp only [Option.some.injEq] at hf
          subst hf
          simp at hstage
        · split at hf
          · simp at hf
          · simp only [Option.map_eq_some'] at hf
            obtain ⟨err, -, hf⟩ := hf
            subst hf
            simp only at hstage
            simp [stageArgs, hstage]

set_option maxRecDepth 8000 in
/-- Witness of C7 on `brokenMultipartMessage`: the multipart stage is the first to fail
and the error names content type and boundary. -/
theorem parseEmail_error_is_first_failure_witness :
    (ParseEmail refEnv brokenMultipartMessage []).1.2 =
      some (.wrap "letters.ParseEmail: cannot parse part %q with boundary %q: %w"
        ["multipart/mixed", "b1"] (.base "multipart: boundary not found: --b1")) :=
  (parseEmail_error_is_first_failure refEnv brokenMultipartMessage []).1.trans (by decide)

/-- C8 fails as stated: with a text decoder that returns the text decoded before the
failure together with its error, `ParseEmail` fails on a base64 `text/plain` message
with a broken body and the Email returned with the error has `Text` populated. -/
theorem failed_text_decode_populates_text_counterexample :
    (ParseEmail partialTextEnv partialBase64Message []).1.2 ≠ none
      ∧ (ParseEmail partialTextEnv partialBase64Message []).1.1.Text = "Hel"
      ∧ (ParseEmail partialTextEnv partialBase64Message []).1.1.Text ≠ "" := by
  decide

/-- C8, amended: whenever `ParseEmail` returns an error, the Email returned with it has
empty `InlineFiles` and `AttachedFiles`. Its `Text`, `EnrichedText` and `HTML` are empty
when the first failing stage is not a text decode (framing, header parsing,
transfer-encoding resolution, multipart descent, attachment decode: nothing partial is
merged). When the text decode of a `text/plain`, `text/enriched` or `text/html` message
fails, the text field of that type holds exactly the string the text decoder returned
with its error, and the other two text fields are empty. -/
theorem parseEmail_error_partial_result (env : Env) (r : Reader)
    (opts : List ParseOption)
    (herr : (ParseEmail env r opts).1.2 ≠ none) :
    (ParseEmail env r opts).1.1.InlineFiles = []
      ∧ (ParseEmail env r opts).1.1.AttachedFiles = []
      ∧ (∀ f, firstFailure env r opts = some f →
          f.stage ≠ .plainText → f.stage ≠ .enrichedText → f.stage ≠ .htmlText →
          (ParseEmail env r opts).1.1.Text = ""
            ∧ (ParseEmail env r opts).1.1.EnrichedText = ""
            ∧ (ParseEmail env r opts).1.1.HTML = "")
      ∧ (∀ header buffered n headers cte,
          env.ReadMessage r = (.ok (header, buffered), n) →
          env.parseHeaders header = (headers, none) →
          env.parseContentTransferEncoding (header.Get "Content-Transfer-Encoding")
            = (cte, none) →
          (headers.ContentType.ContentType = contentTypeTextPlain →
            (ParseEmail env r opts).1.1 =
              { Headers := headers
                Text := (env.parseText { buffered := buffered, src := r.pull n }
                  (env.charsetLookup (headers.ContentType.Params.get "charset")) cte).1.1 })
          ∧ (headers.ContentType.ContentType = contentTypeTextEnriched →
            (ParseEmail env r opts).1.1 =
              { Headers := headers
                EnrichedText := (env.parseText { buffered := buffered, src := r.pull n }
                  (env.charsetLookup (headers.ContentType.Params.get "charset")) cte).1.1 })
          ∧ (headers.ContentType.ContentType = contentTypeTextHtml →
            (ParseEmail env r opts).1.1 =
              { Headers := headers
                HTML := (env.parseText { buffered := buffered, src := r.pull n }
                  (env.charsetLookup (headers.ContentType.Params.get "charset"))
                  cte).1.1 })) := by
  have hne1 : contentTypeTextEnriched ≠ contentTypeTextPlain := by decide
  have hne2 : contentTypeTextHtml ≠ contentTypeTextPlain := by decide
  have hne3 : contentTypeTextHtml ≠ contentTypeTextEnriched := by decide
  rcases hmsg : env.ReadMessage r with ⟨err | ⟨header, buffered⟩, n⟩
  · refine ⟨?_, ?_, ?_, ?_⟩
    · simp [ParseEmail, hmsg]
    · simp [ParseEmail, hmsg]
    · intro f _ _ _ _
      simp [ParseEmail, hmsg]
    · intro header buffered n headers cte h
      simp at h
  · rcases hhdr : env.parseHeaders header with ⟨headers, _ | e⟩
    · rcases hcte : env.parseContentTransferEncoding
        (header.Get "Content-Transfer-Encoding") with ⟨cte, _ | e⟩
      · have hd := dispatch_error_email env (applyOptions opts) opts
          { Header := header, Body := { buffered := buffered, src := r.pull n } }
          headers (env.charsetLookup (headers.ContentType.Params.get "charset")) cte
          (r.pull n)
        have hp := ParseEmail_eq_dispatch env r opts header buffered n headers cte hmsg
          hhdr hcte
        rcases hres : dispatch env (applyOptions opts) opts
          { Header := header, Body := { buffered := buffered, src := r.pull n } }
          { Headers := headers }
          (env.charsetLookup (headers.ContentType.Params.get "charset")) cte (r.pull n)
          with ⟨⟨email, _ | err⟩, r2⟩
        · rw [hp, hres] at herr
          simp at herr
        · rw [hres] at hd hp
          simp only [ne_eq, not_false_eq_true, forall_const, reduceCtorEq] at hd hp
          have hemail : (ParseEmail env r opts).1.1 = email := by rw [hp]
          rw [hemail, hd]
          refine ⟨?_, ?_, ?_, ?_⟩
          · split_ifs <;> rfl
          · split_ifs <;> rfl
          · intro f hf h1 h2 h3
            simp only [firstFailure, hmsg, hhdr, hcte, selectedBranch] at hf
            split_ifs at hf with c1 c2 c3 c4 c5 <;>
              simp only [Option.map_eq_some', reduceCtorEq] at hf
            · obtain ⟨_, -, rfl⟩ := hf
              exact absurd rfl h1
            · obtain ⟨_, -, rfl⟩ := hf
              exact absurd rfl h2
            · obtain ⟨_, -, rfl⟩ := hf
              exact absurd rfl h3
            · simp [c1, c2, c3]
            · simp [c1, c2, c3]
          · intro header2 buffered2 n2 headers2 cte2 hm hh hc
            simp only [Prod.mk.injEq, Except.ok.injEq] at hm
            obtain ⟨⟨rfl, rfl⟩, rfl⟩ := hm
            rw [hhdr] at hh
            rw [hcte] at hc
            simp only [Prod.mk.injEq, and_true] at hh hc
            subst hh
            subst hc
            refine ⟨fun h => ?_, fun h => ?_, fun h => ?_⟩
            · simp [h]
            · simp [h, hne1]
            · simp [h, hne2, hne3]
      · refine ⟨?_, ?_, ?_, ?_⟩
        · simp [ParseEmail, hmsg, hhdr, hcte]
        · simp [ParseEmail, hmsg, hhdr, hcte]
        · intro f _ _ _ _
          simp [ParseEmail, hmsg, hhdr, hcte]
        · intro header2 buffered2 n2 headers2 cte2 hm hh hc
          simp only [Prod.mk.injEq, Except.ok.injEq] at hm
          obtain ⟨⟨rfl, rfl⟩, rfl⟩ := hm
          rw [hcte] at hc
          simp at hc
    · refine ⟨?_, ?_, ?_, ?_⟩
      · simp [ParseEmail, hmsg, hhdr]
      · simp [ParseEmail, hmsg, hhdr]
      · intro f _ _ _ _
        simp [ParseEmail, hmsg, hhdr]
      · intro header2 buffered2 n2 headers2 cte2 hm hh hc
        simp only [Prod.mk.injEq, Except.ok.injEq] at hm
        obtain ⟨⟨rfl, rfl⟩, rfl⟩ := hm
        rw [hhdr] at hh
        simp at hh

/-- Witness of the amended C8 on `partialBase64Message`, whose text decode fails after
one decoded group. -/
theorem parseEmail_error_partial_result_witness :
    (ParseEmail partialTextEnv partialBase64Message []).1.2 ≠ none
      ∧ (ParseEmail partialTextEnv partialBase64Message []).1.1.InlineFiles = []
      ∧ (ParseEmail partialTextEnv partialBase64Message []).1.1.AttachedFiles = []
      ∧ (ParseEmail partialTextEnv partialBase64Message []).1.1 =
          { Headers := { ContentType := { ContentType := "text/plain" },
                         Other := partialBase64Header }
            Text := "Hel" } :=
  ⟨by decide,
    (parseEmail_error_partial_result partialTextEnv partialBase64Message []
      (by decide)).1,
    (parseEmail_error_partial_result partialTextEnv partialBase64Message []
      (by decide)).2.1,
    (((parseEmail_error_partial_result partialTextEnv partialBase64Message []
      (by decide)).2.2.2 partialBase64Header (bytesOf "SGVs!!!!")
      partialBase64Message.length
      { ContentType := { ContentType := "text/plain" }, Other := partialBase64Header }
      .cteBase64 (by decide) (by decide) (by decide)).1 (by decide)).trans (by decide)⟩

/-- C10: `StripEmailAttachments` fails exactly when `ParseEmail` on the same input with
the skip-attachments option fails; on failure it returns no bytes and an error wrapping
the error of `ParseEmail`, on success it returns the captured bytes and no error. -/
theorem strip_fails_iff_parse_fails (env : Env) (r : Reader) :
    ((StripEmailAttachments env r).2 ≠ none ↔
        (ParseEmail env r [WithParseSkipAttachments]).1.2 ≠ none)
      ∧ (∀ err, (ParseEmail env r [WithParseSkipAttachments]).1.2 = some err →
          StripEmailAttachments env r =
            ([], some (fmtErrorf "letters.StripEmailAttachments: cannot parse email: %w"
              [] err)))
      ∧ ((ParseEmail env r [WithParseSkipAttachments]).1.2 = none →
          StripEmailAttachments env r =
            (teeBytes r (ParseEmail env r [WithParseSkipAttachments]).2, none)) := by
  rcases hres : ParseEmail env r [WithParseSkipAttachments] with ⟨⟨email, _ | e⟩, after⟩ <;>
    simp [StripEmailAttachments, hres]

/-- Witness of C10: a failing parse on `bogusMessage`, a successful one on
`plainMessage`. -/
theorem strip_fails_iff_parse_fails_witness :
    StripEmailAttachments refEnv bogusMessage =
        ([], some (.wrap "letters.StripEmailAttachments: cannot parse email: %w" []
          (.wrap "letters.ParseEmail: cannot parse Content-Transfer-Encoding: %w" []
            (.base "unknown Content-Transfer-Encoding"))))
      ∧ StripEmailAttachments refEnv plainMessage = (plainMessage, none) :=
  ⟨(strip_fails_iff_parse_fails refEnv bogusMessage).2.1
      (.wrap "letters.ParseEmail: cannot parse Content-Transfer-Encoding: %w" []
        (.base "unknown Content-Transfer-Encoding")) (by decide),
    ((strip_fails_iff_parse_fails refEnv plainMessage).2.2 (by decide)).trans (by decide)⟩

/-- C9 fails as stated: on a large single-part `application/pdf` message
`StripEmailAttachments` succeeds and returns the first 4096 of the 6031 input bytes;
the body bytes beyond what message framing buffered are never read, hence not
returned. -/
theorem strip_not_entire_input_counterexample :
    (StripEmailAttachments refEnv largePdfMessage).2 = none
      ∧ (StripEmailAttachments refEnv largePdfMessage).1 = largePdfMessage.take 4096
      ∧ (StripEmailAttachments refEnv largePdfMessage).1.length = 4096
      ∧ largePdfMessage.length = 6031
      ∧ (StripEmailAttachments refEnv largePdfMessage).1 ≠ largePdfMessage := by
  have hlen : (largePdfMessage.take 4096).length = 4096 := by
    rw [List.length_take, largePdfMessage_length]
    rfl
  rw [strip_largePdfMessage]
  refine ⟨rfl, rfl, hlen, largePdfMessage_length, fun h => ?_⟩
  have h2 := congrArg List.length h
  simp only at h2
  rw [hlen, largePdfMessage_length] at h2
  omega

/-- C9, amended: when `StripEmailAttachments` succeeds, the returned bytes are exactly
the bytes the parse pass read from the stream (followed by the bytes the pass left
unread they make up the input): a prefix of the input, equal to the entire input
exactly when the pass read the stream to its end. For a top-level Content-Type that is
neither text nor multipart the pass reads nothing after message framing, so the returned
bytes are the `n` bytes framing pulled. -/
theorem strip_returns_bytes_read (env : Env) (r : Reader) (out : Bytes)
    (hok : StripEmailAttachments env r = (out, none)) :
    out ++ (ParseEmail env r [WithParseSkipAttachments]).2 = r
      ∧ out <+: r
      ∧ (out = r ↔ (ParseEmail env r [WithParseSkipAttachments]).2 = [])
      ∧ (∀ header buffered n headers cte,
          env.ReadMessage r = (.ok (header, buffered), n) →
          env.parseHeaders header = (headers, none) →
          env.parseContentTransferEncoding (header.Get "Content-Transfer-Encoding")
            = (cte, none) →
          headers.ContentType.ContentType ≠ contentTypeTextPlain →
          headers.ContentType.ContentType ≠ contentTypeTextEnriched →
          headers.ContentType.ContentType ≠ contentTypeTextHtml →
          hasPrefix headers.ContentType.ContentType contentTypeMultipartPrefix = false →
          out = r.take n) := by
  obtain ⟨m, hm⟩ := ParseEmail_reader env r [WithParseSkipAttachments]
  have hout : out = r.take m := by
    rcases hres : ParseEmail env r [WithParseSkipAttachments] with ⟨⟨email, _ | e⟩, after⟩
    · rw [hres] at hm
      simp only at hm
      subst hm
      simp only [StripEmailAttachments, hres, teeBytes_drop, Prod.mk.injEq, and_true] at hok
      exact hok.symm
    · simp [StripEmailAttachments, hres] at hok
  refine ⟨?_, hout ▸ List.take_prefix m r, ?_, ?_⟩
  · rw [hm, hout]
    exact List.take_append_drop m r
  · rw [hm, hout, List.drop_eq_nil_iff]
    constructor
    · intro h
      have h2 := congrArg List.length h
      rw [List.length_take] at h2
      omega
    · exact fun h => List.take_of_length_le h
  · intro header buffered n headers cte hmsg hhdr hcte hplain henriched hhtml hmulti
    have h := strip_other env r header buffered n headers cte hmsg hhdr hcte hplain
      henriched hhtml hmulti
    rw [hok] at h
    exact (Prod.mk.inj h).1

/-- Witness of the amended C9 on `largePdfMessage`: the returned bytes are the first
4096 bytes of the input, the bytes the parse pass read. -/
theorem strip_returns_bytes_read_witness :
    largePdfMessage.take 4096
        ++ (ParseEmail refEnv largePdfMessage [WithParseSkipAttachments]).2 = largePdfMessage
      ∧ largePdfMessage.take 4096 <+: largePdfMessage
      ∧ (largePdfMessage.take 4096 = largePdfMessage ↔
          (ParseEmail refEnv largePdfMessage [WithParseSkipAttachments]).2 = []) :=
  ⟨(strip_returns_bytes_read refEnv largePdfMessage (largePdfMessage.take 4096)
      strip_largePdfMessage).1,
    (strip_returns_bytes_read refEnv largePdfMessage (largePdfMessage.take 4096)
      strip_largePdfMessage).2.1,
    (strip_returns_bytes_read refEnv largePdfMessage (largePdfMessage.take 4096)
      strip_largePdfMessage).2.2.1⟩

end Letters
